import Mathlib

/-!
Shallow embedding of the delegation-checking core of the repository
(`src/check_delegation.ts` and the ping submitter in the wallet UI module).

Modelling conventions:
* Byte sequences (`Buffer` / `Uint8Array`) are `List Nat` whose elements are
  byte values.
* `PublicKey` string parsing and printing are the base-58 codec of the `bs58`
  library, written out explicitly; a parsed key is its 32-byte buffer.
* The cryptographic primitives used by `PublicKey.findProgramAddressSync`
  (SHA-256 and the ed25519 on-curve predicate) are library primitives, so the
  derivation is parameterised over an arbitrary `hash` function and `isOnCurve`
  predicate.
* The single network read of `checkDelegation` (`connection.getAccountInfo`)
  is an oracle `fetch` mapping the queried address to an outcome; the
  instrumented variants additionally return the list of addresses read (resp.
  the list of network operations performed), so that "no network call was
  attempted" is a statement about the returned trace.
* `async`/`throw` is `Except String`; the dynamic text interpolated into the
  wrapper messages of the source is abstracted to fixed strings where the
  underlying library produced it.
-/

namespace MagicblockDevUtils

/-! ### Base-58 codec (the `bs58` dependency used by `PublicKey`) -/

def base58Chars : List Char :=
  "123456789ABCDEFGHJKLMNPQRSTUVWXYZabcdefghijkmnopqrstuvwxyz".toList

def base58IndexAux (c : Char) : List Char → Nat → Option Nat
  | [], _ => none
  | d :: ds, i => if d = c then some i else base58IndexAux c ds (i + 1)

def base58Index (c : Char) : Option Nat :=
  base58IndexAux c base58Chars 0

/-- Big-endian positional value of a base-58 digit string; `none` on any
character outside the alphabet. -/
def base58Value : List Char → Nat → Option Nat
  | [], acc => some acc
  | c :: cs, acc =>
    match base58Index c with
    | none => none
    | some d => base58Value cs (acc * 58 + d)

/-- Little-endian base-256 digits of `n`; the first argument is fuel, and
`natToBytesLEAux n n` always has enough of it since `n / 256 < n`. -/
def natToBytesLEAux : Nat → Nat → List Nat
  | 0, _ => []
  | fuel + 1, n => if n = 0 then [] else n % 256 :: natToBytesLEAux fuel (n / 256)

def natToBytesBE (n : Nat) : List Nat :=
  (natToBytesLEAux n n).reverse

def countLeading (x : Nat) : List Nat → Nat
  | [] => 0
  | y :: ys => if y = x then countLeading x ys + 1 else 0

def countLeadingChar (x : Char) : List Char → Nat
  | [] => 0
  | y :: ys => if y = x then countLeadingChar x ys + 1 else 0

/-- `bs58.decode`: every leading `'1'` is a zero byte, the remainder is the
big-endian base-256 expansion of the digit-string value. -/
def base58Decode (s : String) : Option (List Nat) :=
  match base58Value s.toList 0 with
  | none => none
  | some n => some (List.replicate (countLeadingChar '1' s.toList) 0 ++ natToBytesBE n)

/-- Big-endian base-58 digits of `n` (fuelled like `natToBytesLEAux`). -/
def natToB58Aux : Nat → Nat → List Nat
  | 0, _ => []
  | fuel + 1, n => if n = 0 then [] else natToB58Aux fuel (n / 58) ++ [n % 58]

def bytesToNat (bs : List Nat) : Nat :=
  bs.foldl (fun acc b => acc * 256 + b) 0

/-- `bs58.encode`: every leading zero byte is a `'1'`, the remainder is the
base-58 expansion of the big-endian byte value. -/
def base58Encode (bs : List Nat) : String :=
  String.mk (List.replicate (countLeading 0 bs) '1' ++
    (natToB58Aux (bytesToNat bs) (bytesToNat bs)).map (fun d => base58Chars.getD d '1'))

/-- `new PublicKey(string)`: base-58 decode, then require exactly 32 bytes. -/
def parsePubkey (s : String) : Option (List Nat) :=
  match base58Decode s with
  | none => none
  | some bs => if bs.length = 32 then some bs else none

/-! ### Constants of `src/check_delegation.ts` -/

def DELEGATION_PROGRAM_STR : String :=
  "DELeGGvXpWV2fqJUhqcF5ZSYMS4JTLjteaAMARRSaeSh"

def DELEGATION_RECORD_DATA_SIZE : Nat := 96

/-! ### Record decoder (`extractDelegationIdentity`, lines 38-43) -/

/-- `extractDelegationIdentity`: `null` unless the data is exactly 96 bytes,
otherwise the 32-byte slice `data.slice(8, 40)`.  (The `new PublicKey` wrapper
on a 32-byte buffer is total, so the returned value is just the slice.) -/
def extractDelegationIdentity (data : List Nat) : Option (List Nat) :=
  if data.length ≠ DELEGATION_RECORD_DATA_SIZE then none
  else some ((data.drop 8).take 32)

/-! ### PDA derivation (`getDelegationRecordPDA`, lines 28-35, on top of
`PublicKey.findProgramAddressSync` of `@solana/web3.js`) -/

def utf8Encode (s : String) : List Nat :=
  s.toList.map Char.toNat

/-- `PublicKey.createProgramAddressSync`: hash the concatenated seeds, the
program id, and the fixed `"ProgramDerivedAddress"` marker; reject (throw,
here `none`) a candidate that lies on the curve. -/
def createProgramAddress (hash : List Nat → List Nat) (isOnCurve : List Nat → Bool)
    (seeds : List (List Nat)) (programId : List Nat) : Option (List Nat) :=
  let h := hash (seeds.flatten ++ programId ++ utf8Encode "ProgramDerivedAddress")
  if isOnCurve h then none else some h

/-- The bump search of `PublicKey.findProgramAddressSync`: the source loops
`nonce` from 255 while `nonce != 0`, so bumps 255 down to 1 are tried; the
fuel argument counts the remaining bumps. -/
def findProgramAddressAux (hash : List Nat → List Nat) (isOnCurve : List Nat → Bool)
    (seeds : List (List Nat)) (programId : List Nat) : Nat → Option (List Nat × Nat)
  | 0 => none
  | n + 1 =>
    match createProgramAddress hash isOnCurve (seeds ++ [[n + 1]]) programId with
    | some addr => some (addr, n + 1)
    | none => findProgramAddressAux hash isOnCurve seeds programId n

def findProgramAddress (hash : List Nat → List Nat) (isOnCurve : List Nat → Bool)
    (seeds : List (List Nat)) (programId : List Nat) : Option (List Nat × Nat) :=
  findProgramAddressAux hash isOnCurve seeds programId 255

/-- `getDelegationRecordPDA`: seeds `["delegation", accountPubkey]` against
the fixed delegation program; the bump is discarded.  `none` models the two
exceptions (invalid program constant, no viable nonce), both caught by the
caller's `try`. -/
def getDelegationRecordPDA (hash : List Nat → List Nat) (isOnCurve : List Nat → Bool)
    (accountPubkey : List Nat) : Option (List Nat) :=
  match parsePubkey DELEGATION_PROGRAM_STR with
  | none => none
  | some delegationProgram =>
    match findProgramAddress hash isOnCurve [utf8Encode "delegation", accountPubkey] delegationProgram with
    | none => none
    | some pb => some pb.1

/-! ### Data model of the resolver (`DelegationResult`, lines 9-25) -/

inductive DelegationStatus where
  | DELEGATED
  | NOT_DELEGATED
deriving DecidableEq, Repr

structure PdaAccountFields where
  lamports : Nat
  owner : String
  dataLength : Nat
  executable : Bool
  rentEpoch : Nat
deriving DecidableEq, Repr

structure RawDataFields where
  discriminator : List Nat
  identityBytes : List Nat
deriving DecidableEq, Repr

structure DelegationResult where
  accountPubkey : String
  delegationPDA : String
  status : DelegationStatus
  validatorIdentity : Option String
  pdaAccount : Option PdaAccountFields
  rawData : Option RawDataFields
deriving DecidableEq, Repr

/-- The account record returned by `connection.getAccountInfo` when the
account exists: `{lamports, owner, data, executable, rentEpoch}`. -/
structure AccountInfo where
  lamports : Nat
  owner : List Nat
  data : List Nat
  executable : Bool
  rentEpoch : Nat
deriving DecidableEq, Repr

/-- Outcome of the one network read: a transport/RPC failure (a throw), or a
successful answer that is either `null` (absent account) or the account. -/
inductive FetchResult where
  | failure (msg : String)
  | success (info : Option AccountInfo)
deriving DecidableEq, Repr

/-- The ambient capabilities of `checkDelegation`: the two cryptographic
primitives of the derivation and the network-read oracle, keyed by the
queried address bytes. -/
structure NetEnv where
  hash : List Nat → List Nat
  isOnCurve : List Nat → Bool
  fetch : List Nat → FetchResult

/-! ### Delegation resolver (`checkDelegation`, lines 46-109) -/

/-- Lines 67-103 of `checkDelegation`: classify the fetched account record at
the derived PDA.  The early return keeps only the two mandatory fields; a
funded account gets its `pdaAccount` metadata, and a 96-byte record
additionally gets `DELEGATED`, the base-58 identity, and the raw slices. -/
def classifyAccount (accountPubkeyStr : String) (delegationPDA : List Nat) :
    FetchResult → Except String DelegationResult
  | FetchResult.failure _ =>
    Except.error "Failed to check delegation: network error"
  | FetchResult.success pdaAccountInfo =>
    let result : DelegationResult :=
      { accountPubkey := accountPubkeyStr
        delegationPDA := base58Encode delegationPDA
        status := DelegationStatus.NOT_DELEGATED
        validatorIdentity := none
        pdaAccount := none
        rawData := none }
    match pdaAccountInfo with
    | none => Except.ok result
    | some info =>
      if info.lamports = 0 then Except.ok result
      else
        let meta : PdaAccountFields :=
          { lamports := info.lamports
            owner := base58Encode info.owner
            dataLength := info.data.length
            executable := info.executable
            rentEpoch := info.rentEpoch }
        match extractDelegationIdentity info.data with
        | some validatorIdentity =>
          Except.ok { result with
            status := DelegationStatus.DELEGATED
            validatorIdentity := some (base58Encode validatorIdentity)
            pdaAccount := some meta
            rawData := some
              { discriminator := info.data.take 8
                identityBytes := (info.data.drop 8).take 32 } }
        | none =>
          Except.ok { result with pdaAccount := some meta }

/-- `checkDelegation`, instrumented: besides the result it returns the list of
addresses actually read from the network, so absence of a network call is the
empty trace.  Parse failure and derivation failure reproduce the `catch`
wrapper of lines 105-108. -/
def checkDelegationT (env : NetEnv) (accountPubkeyStr : String) :
    Except String DelegationResult × List (List Nat) :=
  match parsePubkey accountPubkeyStr with
  | none => (Except.error "Failed to check delegation: Invalid public key input", [])
  | some accountPubkey =>
    match getDelegationRecordPDA env.hash env.isOnCurve accountPubkey with
    | none =>
      (Except.error "Failed to check delegation: Unable to find a viable program address nonce", [])
    | some delegationPDA =>
      (classifyAccount accountPubkeyStr delegationPDA (env.fetch delegationPDA), [delegationPDA])

def checkDelegation (env : NetEnv) (accountPubkeyStr : String) :
    Except String DelegationResult :=
  (checkDelegationT env accountPubkeyStr).1

/-! ### Batch resolver (`checkMultipleDelegations`, lines 112-132) -/

/-- The placeholder pushed when one key's check throws (lines 123-127). -/
def placeholderResult (pubkey : String) : DelegationResult :=
  { accountPubkey := pubkey
    delegationPDA := ""
    status := DelegationStatus.NOT_DELEGATED
    validatorIdentity := none
    pdaAccount := none
    rawData := none }

/-- `checkMultipleDelegations`: the sequential loop, pushing the per-key
result or, when the per-key check throws, its placeholder. -/
def checkMultipleDelegations (env : NetEnv) : List String → List DelegationResult
  | [] => []
  | pubkey :: rest =>
    (match checkDelegation env pubkey with
     | Except.ok result => result
     | Except.error _ => placeholderResult pubkey) :: checkMultipleDelegations env rest

/-! ### Verification transaction submitter (`sendPingTransaction` in the
wallet UI module, lines 61-99) -/

structure TransferInstruction where
  fromPubkey : List Nat
  toPubkey : List Nat
  lamports : Nat
deriving DecidableEq, Repr

structure SolTransaction where
  instructions : List TransferInstruction
  recentBlockhash : Option String
  feePayer : Option (List Nat)
deriving DecidableEq, Repr

/-- The network operations and the external-signer call a ping may perform,
in the order the source can reach them. -/
inductive PingCall where
  | blockhashCall
  | signCall
  | submitCall
  | confirmCall
deriving DecidableEq, Repr

/-- Ambient capabilities of `sendPingTransaction`: the blockhash fetch, the
black-box external signer, the raw submit, and the confirmation wait. -/
structure PingEnv where
  getLatestBlockhash : Except String (String × Nat)
  signTransaction : SolTransaction → Except String SolTransaction
  sendRawTransaction : SolTransaction → Except String String
  confirmTransaction : String → String → Nat → Except String Unit

/-- The transaction built by lines 69-80: one zero-lamport transfer, the
fetched blockhash attached, `fromPubkey` as fee payer. -/
def pingTransaction (fromPubkey toPubkey : List Nat) (blockhash : String) : SolTransaction :=
  { instructions := [{ fromPubkey := fromPubkey, toPubkey := toPubkey, lamports := 0 }]
    recentBlockhash := some blockhash
    feePayer := some fromPubkey }

/-- `sendPingTransaction`, instrumented with the list of calls performed.
Every failure path goes through the single `catch` wrapper of lines 96-98,
which prefixes the underlying message. -/
def sendPingTransactionT (env : PingEnv) (fromPubkey toPubkey : List Nat) :
    Except String String × List PingCall :=
  match env.getLatestBlockhash with
  | Except.error e =>
    (Except.error ("Failed to send ping transaction: " ++ e), [PingCall.blockhashCall])
  | Except.ok (blockhash, lastValidBlockHeight) =>
    match env.signTransaction (pingTransaction fromPubkey toPubkey blockhash) with
    | Except.error e =>
      (Except.error ("Failed to send ping transaction: " ++ e),
       [PingCall.blockhashCall, PingCall.signCall])
    | Except.ok signedTransaction =>
      match env.sendRawTransaction signedTransaction with
      | Except.error e =>
        (Except.error ("Failed to send ping transaction: " ++ e),
         [PingCall.blockhashCall, PingCall.signCall, PingCall.submitCall])
      | Except.ok signature =>
        match env.confirmTransaction signature blockhash lastValidBlockHeight with
        | Except.error e =>
          (Except.error ("Failed to send ping transaction: " ++ e),
           [PingCall.blockhashCall, PingCall.signCall, PingCall.submitCall, PingCall.confirmCall])
        | Except.ok _ =>
          (Except.ok signature,
           [PingCall.blockhashCall, PingCall.signCall, PingCall.submitCall, PingCall.confirmCall])

def sendPingTransaction (env : PingEnv) (fromPubkey toPubkey : List Nat) :
    Except String String :=
  (sendPingTransactionT env fromPubkey toPubkey).1

/-! ### Concrete sample inputs used to instantiate the theorems -/

def SAMPLE_KEY : String := "9WzDXwBbmkg8ZTbNMqUxvQRAyrZzDsGYdLVL9zYtAWWM"

def sampleKeyBytes : List Nat := (parsePubkey SAMPLE_KEY).getD []

/-- A 96-byte account holding the bytes 0..95, funded. -/
def sampleInfoDelegated : AccountInfo :=
  { lamports := 1000000
    owner := List.replicate 32 3
    data := List.range 96
    executable := false
    rentEpoch := 361 }

/-- A funded account whose data is 10 bytes, not a well-formed record. -/
def sampleInfoShort : AccountInfo :=
  { lamports := 500
    owner := List.replicate 32 4
    data := List.replicate 10 1
    executable := true
    rentEpoch := 7 }

def testEnv (fetch : List Nat → FetchResult) : NetEnv :=
  { hash := fun bs => List.replicate 32 (bs.length % 256)
    isOnCurve := fun _ => false
    fetch := fetch }

def envDelegated : NetEnv := testEnv fun _ => FetchResult.success (some sampleInfoDelegated)

def envShort : NetEnv := testEnv fun _ => FetchResult.success (some sampleInfoShort)

def envAbsent : NetEnv := testEnv fun _ => FetchResult.success none

def samplePda (env : NetEnv) : List Nat :=
  (getDelegationRecordPDA env.hash env.isOnCurve sampleKeyBytes).getD []

/-- The result a successful check produced, for instantiating invariants. -/
def sampleOk (env : NetEnv) (s : String) : DelegationResult :=
  match checkDelegation env s with
  | Except.ok r => r
  | Except.error _ => placeholderResult s

/-- The three-key batch of the malformed-middle scenario. -/
def batchKeys : List String := [SAMPLE_KEY, "not-a-key", SAMPLE_KEY]

/-- A ping environment whose external signer rejects every request. -/
def pingEnvRejected : PingEnv :=
  { getLatestBlockhash := Except.ok ("GfVcyD5TDtFvW4Vz1Fcpa8J1HPDvHJ768GV5TVgEK635", 250)
    signTransaction := fun _ => Except.error "User rejected the request"
    sendRawTransaction := fun _ => Except.ok "sig"
    confirmTransaction := fun _ _ _ => Except.ok () }

end MagicblockDevUtils

namespace MagicblockDevUtils

/-! ### Helper lemmas -/

theorem extract_some_of_len96 (data : List Nat) (h : data.length = 96) :
    extractDelegationIdentity data = some ((data.drop 8).take 32) := by
  simp [extractDelegationIdentity, DELEGATION_RECORD_DATA_SIZE, h]

theorem extract_none_of_len_ne96 (data : List Nat) (h : data.length ≠ 96) :
    extractDelegationIdentity data = none := by
  simp [extractDelegationIdentity, DELEGATION_RECORD_DATA_SIZE, h]

theorem checkDelegationT_step (env : NetEnv) (s : String) (key pda : List Nat)
    (hparse : parsePubkey s = some key)
    (hpda : getDelegationRecordPDA env.hash env.isOnCurve key = some pda) :
    checkDelegationT env s = (classifyAccount s pda (env.fetch pda), [pda]) := by
  unfold checkDelegationT
  simp only [hparse, hpda]

/-! ### Claim theorems -/

/-- C4: the record decoder accepts every 96-byte input — with any
discriminator value in bytes 0-7 — and returns exactly the 32-byte slice
`data[8:40]` as the validator identity; being a total function, it never
raises. -/
theorem decoder_accepts_any_96_bytes (data : List Nat) (h : data.length = 96) :
    extractDelegationIdentity data = some ((data.drop 8).take 32) :=
  extract_some_of_len96 data h

/-- C4 witness: the decoder applied to the concrete bytes 0..95 yields the
slice 8..39. -/
theorem decoder_accepts_any_96_bytes_witness :
    extractDelegationIdentity (List.range 96) = some (((List.range 96).drop 8).take 32) :=
  decoder_accepts_any_96_bytes (List.range 96) (by decide)

/-- C5: the record decoder returns no value on every input whose length is
not exactly 96 bytes; it never returns a partial struct. -/
theorem decoder_rejects_non_96_length (data : List Nat) (h : data.length ≠ 96) :
    extractDelegationIdentity data = none :=
  extract_none_of_len_ne96 data h

/-- C5 witness: lengths 0, 95, 97 and 1000 all yield no value. -/
theorem decoder_rejects_non_96_length_witness :
    extractDelegationIdentity [] = none ∧
    extractDelegationIdentity (List.replicate 95 2) = none ∧
    extractDelegationIdentity (List.replicate 97 2) = none ∧
    extractDelegationIdentity (List.replicate 1000 2) = none :=
  ⟨decoder_rejects_non_96_length [] (by decide),
   decoder_rejects_non_96_length (List.replicate 95 2)
     (by rw [List.length_replicate]; decide),
   decoder_rejects_non_96_length (List.replicate 97 2)
     (by rw [List.length_replicate]; decide),
   decoder_rejects_non_96_length (List.replicate 1000 2)
     (by rw [List.length_replicate]; decide)⟩

/-- C1: when the network read at the derived PDA returns a present account
with positive lamports and exactly 96 bytes of data, the resolver returns
`DELEGATED`, `validatorIdentity` is the base-58 encoding of bytes 8-39 of the
stored data, and `rawData.identityBytes` is those same 32 bytes. -/
theorem resolve_delegated_on_funded_96byte_record
    (env : NetEnv) (s : String) (key pda : List Nat) (info : AccountInfo)
    (hparse : parsePubkey s = some key)
    (hpda : getDelegationRecordPDA env.hash env.isOnCurve key = some pda)
    (hfetch : env.fetch pda = FetchResult.success (some info))
    (hfund : 0 < info.lamports)
    (hlen : info.data.length = 96) :
    ∃ r, checkDelegation env s = Except.ok r ∧
      r.status = DelegationStatus.DELEGATED ∧
      r.validatorIdentity = some (base58Encode ((info.data.drop 8).take 32)) ∧
      r.rawData = some { discriminator := info.data.take 8
                         identityBytes := (info.data.drop 8).take 32 } := by
  have hfund' : info.lamports ≠ 0 := Nat.pos_iff_ne_zero.mp hfund
  unfold checkDelegation
  rw [checkDelegationT_step env s key pda hparse hpda, hfetch]
  simp only [classifyAccount, hfund', if_false, extract_some_of_len96 info.data hlen]
  exact ⟨_, rfl, rfl, rfl, rfl⟩

/-- C1 witness: the sample key against a mock network returning a funded
96-byte record of the bytes 0..95 resolves to `DELEGATED` with the base-58
encoding of bytes 8..39. -/
theorem resolve_delegated_on_funded_96byte_record_witness :
    ∃ r, checkDelegation envDelegated SAMPLE_KEY = Except.ok r ∧
      r.status = DelegationStatus.DELEGATED ∧
      r.validatorIdentity = some (base58Encode ((sampleInfoDelegated.data.drop 8).take 32)) ∧
      r.rawData = some { discriminator := sampleInfoDelegated.data.take 8
                         identityBytes := (sampleInfoDelegated.data.drop 8).take 32 } :=
  resolve_delegated_on_funded_96byte_record envDelegated SAMPLE_KEY sampleKeyBytes
    (samplePda envDelegated) sampleInfoDelegated (by rfl) (by rfl) (by rfl)
    (by decide) (by decide)

/-- C2: when the network read returns a present account with positive
lamports but data length ≠ 96, the resolver returns `NOT_DELEGATED` while
`pdaAccount` still carries the lamports, owner, data length, executable flag
and rent epoch from the read, and `validatorIdentity` is absent. -/
theorem resolve_not_delegated_wrong_length_keeps_metadata
    (env : NetEnv) (s : String) (key pda : List Nat) (info : AccountInfo)
    (hparse : parsePubkey s = some key)
    (hpda : getDelegationRecordPDA env.hash env.isOnCurve key = some pda)
    (hfetch : env.fetch pda = FetchResult.success (some info))
    (hfund : 0 < info.lamports)
    (hlen : info.data.length ≠ 96) :
    ∃ r, checkDelegation env s = Except.ok r ∧
      r.status = DelegationStatus.NOT_DELEGATED ∧
      r.pdaAccount = some { lamports := info.lamports
                            owner := base58Encode info.owner
                            dataLength := info.data.length
                            executable := info.executable
                            rentEpoch := info.rentEpoch } ∧
      r.validatorIdentity = none := by
  have hfund' : info.lamports ≠ 0 := Nat.pos_iff_ne_zero.mp hfund
  unfold checkDelegation
  rw [checkDelegationT_step env s key pda hparse hpda, hfetch]
  simp only [classifyAccount, hfund', if_false, extract_none_of_len_ne96 info.data hlen]
  exact ⟨_, rfl, rfl, rfl, rfl⟩

/-- C2 witness: the sample key against a mock network returning a funded
account with 10 bytes of data resolves to `NOT_DELEGATED` with the metadata
fields populated. -/
theorem resolve_not_delegated_wrong_length_keeps_metadata_witness :
    ∃ r, checkDelegation envShort SAMPLE_KEY = Except.ok r ∧
      r.status = DelegationStatus.NOT_DELEGATED ∧
      r.pdaAccount = some { lamports := sampleInfoShort.lamports
                            owner := base58Encode sampleInfoShort.owner
                            dataLength := sampleInfoShort.data.length
                            executable := sampleInfoShort.executable
                            rentEpoch := sampleInfoShort.rentEpoch } ∧
      r.validatorIdentity = none :=
  resolve_not_delegated_wrong_length_keeps_metadata envShort SAMPLE_KEY sampleKeyBytes
    (samplePda envShort) sampleInfoShort (by rfl) (by rfl) (by rfl) (by decide) (by decide)

/-- C3: when the network read reports the derived PDA account as absent, or
present with zero lamports, the resolver returns `NOT_DELEGATED` with none of
the optional fields (`pdaAccount`, `validatorIdentity`, `rawData`) populated. -/
theorem resolve_not_delegated_absent_or_zero_balance
    (env : NetEnv) (s : String) (key pda : List Nat)
    (hparse : parsePubkey s = some key)
    (hpda : getDelegationRecordPDA env.hash env.isOnCurve key = some pda)
    (habs : env.fetch pda = FetchResult.success none ∨
            ∃ info, env.fetch pda = FetchResult.success (some info) ∧ info.lamports = 0) :
    checkDelegation env s = Except.ok
      { accountPubkey := s
        delegationPDA := base58Encode pda
        status := DelegationStatus.NOT_DELEGATED
        validatorIdentity := none
        pdaAccount := none
        rawData := none } := by
  unfold checkDelegation
  rw [checkDelegationT_step env s key pda hparse hpda]
  rcases habs with habs | ⟨info, hfetch, hzero⟩
  · rw [habs]
    rfl
  · rw [hfetch]
    simp only [classifyAccount, hzero, if_true]

/-- C3 witness: the sample key against a mock network returning no account at
the derived PDA resolves to `NOT_DELEGATED` with no optional fields. -/
theorem resolve_not_delegated_absent_or_zero_balance_witness :
    checkDelegation envAbsent SAMPLE_KEY = Except.ok
      { accountPubkey := SAMPLE_KEY
        delegationPDA := base58Encode (samplePda envAbsent)
        status := DelegationStatus.NOT_DELEGATED
        validatorIdentity := none
        pdaAccount := none
        rawData := none } :=
  resolve_not_delegated_absent_or_zero_balance envAbsent SAMPLE_KEY sampleKeyBytes
    (samplePda envAbsent) (by rfl) (by rfl) (Or.inl (by rfl))

/-- C6: when the input string does not parse to a valid 32-byte key, the
resolver fails with the invalid-input error and its network trace is empty —
no account read was attempted at any address. -/
theorem resolve_invalid_input_no_network_call (env : NetEnv) (s : String)
    (hbad : parsePubkey s = none) :
    (checkDelegationT env s).1 =
      Except.error "Failed to check delegation: Invalid public key input" ∧
    (checkDelegationT env s).2 = [] := by
  unfold checkDelegationT
  rw [hbad]
  exact ⟨rfl, rfl⟩

/-- C6 witness: the malformed input string `"not-a-key"` fails with the
invalid-input error and an empty network trace. -/
theorem resolve_invalid_input_no_network_call_witness :
    (checkDelegationT envAbsent "not-a-key").1 =
      Except.error "Failed to check delegation: Invalid public key input" ∧
    (checkDelegationT envAbsent "not-a-key").2 = [] :=
  resolve_invalid_input_no_network_call envAbsent "not-a-key" (by decide)

/-! ### Batch helpers -/

theorem checkMultipleDelegations_length (env : NetEnv) (keys : List String) :
    (checkMultipleDelegations env keys).length = keys.length := by
  induction keys with
  | nil => rfl
  | cons k ks ih => simp [checkMultipleDelegations, ih]

theorem checkMultipleDelegations_getD (env : NetEnv) (keys : List String) (i : Nat)
    (h : i < keys.length) :
    (checkMultipleDelegations env keys).getD i (placeholderResult "") =
      match checkDelegation env (keys.getD i "") with
      | Except.ok r => r
      | Except.error _ => placeholderResult (keys.getD i "") := by
  induction keys generalizing i with
  | nil => exact absurd h (by simp)
  | cons k ks ih =>
    cases i with
    | zero => rfl
    | succ j =>
      simp only [checkMultipleDelegations, List.getD_cons_succ]
      exact ih j (by simpa using h)

/-- C7: the batch resolver returns one result per input key, in input order,
and never aborts mid-batch: each slot holds the key's own resolve result, and
a slot whose resolve threw holds the placeholder (`NOT_DELEGATED`, empty PDA)
instead. -/
theorem batch_preserves_length_order_isolates_failures (env : NetEnv) (keys : List String) :
    (checkMultipleDelegations env keys).length = keys.length ∧
    ∀ i, i < keys.length →
      (checkMultipleDelegations env keys).getD i (placeholderResult "") =
        match checkDelegation env (keys.getD i "") with
        | Except.ok r => r
        | Except.error _ => placeholderResult (keys.getD i "") :=
  ⟨checkMultipleDelegations_length env keys,
   fun i h => checkMultipleDelegations_getD env keys i h⟩

/-- C7 witness: the batch of three keys whose middle key is malformed has
length 3 and carries the placeholder at index 1. -/
theorem batch_preserves_length_order_isolates_failures_witness :
    (checkMultipleDelegations envAbsent batchKeys).length = 3 ∧
    (checkMultipleDelegations envAbsent batchKeys).getD 1 (placeholderResult "") =
      placeholderResult "not-a-key" := by
  have h := batch_preserves_length_order_isolates_failures envAbsent batchKeys
  refine ⟨h.1, ?_⟩
  rw [h.2 1 (by decide)]
  rfl

/-- C9: PDA derivation is a pure, deterministic function of the cryptographic
primitives and the account key: two resolver environments agreeing on the
hash and on-curve primitives — whatever their network oracles do — derive
byte-identical addresses for the same key. -/
theorem derive_pda_deterministic (env1 env2 : NetEnv) (accountPubkey : List Nat)
    (hh : env1.hash = env2.hash) (hc : env1.isOnCurve = env2.isOnCurve) :
    getDelegationRecordPDA env1.hash env1.isOnCurve accountPubkey =
      getDelegationRecordPDA env2.hash env2.isOnCurve accountPubkey := by
  rw [hh, hc]

/-- C9 witness: two derivations of the sample key under different network
oracles yield the identical address. -/
theorem derive_pda_deterministic_witness :
    getDelegationRecordPDA envDelegated.hash envDelegated.isOnCurve sampleKeyBytes =
      getDelegationRecordPDA envAbsent.hash envAbsent.isOnCurve sampleKeyBytes :=
  derive_pda_deterministic envDelegated envAbsent sampleKeyBytes rfl rfl

/-! ### Invariant helpers -/

theorem classifyAccount_ok_invariant (s : String) (pda : List Nat) (fr : FetchResult)
    (r : DelegationResult) (h : classifyAccount s pda fr = Except.ok r) :
    (r.validatorIdentity.isSome ↔ r.status = DelegationStatus.DELEGATED) ∧
    (r.rawData.isSome ↔ r.status = DelegationStatus.DELEGATED) ∧
    r.accountPubkey = s := by
  cases fr with
  | failure msg => simp [classifyAccount] at h
  | success pdaAccountInfo =>
    cases pdaAccountInfo with
    | none =>
      simp only [classifyAccount, Except.ok.injEq] at h
      subst h
      simp
    | some info =>
      by_cases hz : info.lamports = 0
      · simp only [classifyAccount, hz, if_true, Except.ok.injEq] at h
        subst h
        simp
      · cases hx : extractDelegationIdentity info.data with
        | none =>
          simp only [classifyAccount, hz, if_false, hx, Except.ok.injEq] at h
          subst h
          simp
        | some v =>
          simp only [classifyAccount, hz, if_false, hx, Except.ok.injEq] at h
          subst h
          simp

theorem checkDelegation_ok_invariant (env : NetEnv) (s : String) (r : DelegationResult)
    (h : checkDelegation env s = Except.ok r) :
    (r.validatorIdentity.isSome ↔ r.status = DelegationStatus.DELEGATED) ∧
    (r.rawData.isSome ↔ r.status = DelegationStatus.DELEGATED) ∧
    r.accountPubkey = s := by
  unfold checkDelegation checkDelegationT at h
  split at h
  · exact absurd h (by simp)
  · split at h
    · exact absurd h (by simp)
    · exact classifyAccount_ok_invariant s _ _ r h

/-- C10: in every result of a successful resolve, `validatorIdentity` and
`rawData` are present exactly when the status is `DELEGATED`, and the
`accountPubkey` field repeats the caller's input string verbatim — also in
every slot of the batch resolver, placeholders included. -/
theorem result_optional_fields_iff_delegated :
    (∀ (env : NetEnv) (s : String) (r : DelegationResult),
        checkDelegation env s = Except.ok r →
        (r.validatorIdentity.isSome ↔ r.status = DelegationStatus.DELEGATED) ∧
        (r.rawData.isSome ↔ r.status = DelegationStatus.DELEGATED) ∧
        r.accountPubkey = s) ∧
    (∀ (env : NetEnv) (keys : List String) (i : Nat), i < keys.length →
        (((checkMultipleDelegations env keys).getD i (placeholderResult "")).validatorIdentity.isSome ↔
          ((checkMultipleDelegations env keys).getD i (placeholderResult "")).status =
            DelegationStatus.DELEGATED) ∧
        (((checkMultipleDelegations env keys).getD i (placeholderResult "")).rawData.isSome ↔
          ((checkMultipleDelegations env keys).getD i (placeholderResult "")).status =
            DelegationStatus.DELEGATED) ∧
        ((checkMultipleDelegations env keys).getD i (placeholderResult "")).accountPubkey =
          keys.getD i "") := by
  refine ⟨fun env s r h => checkDelegation_ok_invariant env s r h, ?_⟩
  intro env keys i h
  rw [checkMultipleDelegations_getD env keys i h]
  cases hc : checkDelegation env (keys.getD i "") with
  | ok r => exact checkDelegation_ok_invariant env (keys.getD i "") r hc
  | error e => simp [placeholderResult]

/-- C10 witness: the invariant instantiated at a delegated sample result and
at a batch placeholder slot. -/
theorem result_optional_fields_iff_delegated_witness :
    ((sampleOk envDelegated SAMPLE_KEY).validatorIdentity.isSome ↔
      (sampleOk envDelegated SAMPLE_KEY).status = DelegationStatus.DELEGATED) ∧
    (sampleOk envDelegated SAMPLE_KEY).accountPubkey = SAMPLE_KEY ∧
    ((checkMultipleDelegations envAbsent ["not-a-key"]).getD 0
        (placeholderResult "")).accountPubkey = "not-a-key" :=
  have h1 := result_optional_fields_iff_delegated.1 envDelegated SAMPLE_KEY
    (sampleOk envDelegated SAMPLE_KEY) (by rfl)
  have h2 := result_optional_fields_iff_delegated.2 envAbsent ["not-a-key"] 0 (by decide)
  ⟨h1.1, h1.2.2, h2.2.2⟩

/-- C8: when the external signer rejects, the ping fails with the single
wrapped error carrying the signer's cause, and neither the submit nor the
confirm network call appears in the call trace; moreover every failure of the
ping, at any stage and under any environment, is one wrapped error carrying
the underlying cause. -/
theorem ping_signer_rejection_no_submit_or_confirm
    (env : PingEnv) (fromPubkey toPubkey : List Nat)
    (blockhash : String) (lastValidBlockHeight : Nat) (cause : String)
    (hbh : env.getLatestBlockhash = Except.ok (blockhash, lastValidBlockHeight))
    (hsign : env.signTransaction (pingTransaction fromPubkey toPubkey blockhash) =
      Except.error cause) :
    (sendPingTransactionT env fromPubkey toPubkey).1 =
      Except.error ("Failed to send ping transaction: " ++ cause) ∧
    PingCall.submitCall ∉ (sendPingTransactionT env fromPubkey toPubkey).2 ∧
    PingCall.confirmCall ∉ (sendPingTransactionT env fromPubkey toPubkey).2 ∧
    ∀ (env2 : PingEnv) (f t : List Nat) (e : String),
      (sendPingTransactionT env2 f t).1 = Except.error e →
      ∃ c, e = "Failed to send ping transaction: " ++ c := by
  have hred : sendPingTransactionT env fromPubkey toPubkey =
      (Except.error ("Failed to send ping transaction: " ++ cause),
       [PingCall.blockhashCall, PingCall.signCall]) := by
    unfold sendPingTransactionT
    simp only [hbh, hsign]
  refine ⟨by rw [hred], by rw [hred]; simp, by rw [hred]; simp, ?_⟩
  intro env2 f t e he
  unfold sendPingTransactionT at he
  cases hb : env2.getLatestBlockhash with
  | error e0 =>
    simp only [hb] at he
    injection he with h2
    exact ⟨e0, h2.symm⟩
  | ok p =>
    obtain ⟨bh, lvh⟩ := p
    simp only [hb] at he
    cases hs : env2.signTransaction (pingTransaction f t bh) with
    | error e1 =>
      simp only [hs] at he
      injection he with h2
      exact ⟨e1, h2.symm⟩
    | ok stx =>
      simp only [hs] at he
      cases hr : env2.sendRawTransaction stx with
      | error e2 =>
        simp only [hr] at he
        injection he with h2
        exact ⟨e2, h2.symm⟩
      | ok sig =>
        simp only [hr] at he
        cases hcf : env2.confirmTransaction sig bh lvh with
        | error e3 =>
          simp only [hcf] at he
          injection he with h2
          exact ⟨e3, h2.symm⟩
        | ok u =>
          simp only [hcf] at he
          exact Except.noConfusion he

/-- C8 witness: a concrete ping environment whose signer rejects produces the
wrapped error and a trace without submit and confirm calls. -/
theorem ping_signer_rejection_no_submit_or_confirm_witness :
    (sendPingTransactionT pingEnvRejected [1] [2]).1 =
      Except.error ("Failed to send ping transaction: " ++ "User rejected the request") ∧
    PingCall.submitCall ∉ (sendPingTransactionT pingEnvRejected [1] [2]).2 ∧
    PingCall.confirmCall ∉ (sendPingTransactionT pingEnvRejected [1] [2]).2 :=
  have h := ping_signer_rejection_no_submit_or_confirm pingEnvRejected [1] [2]
    "GfVcyD5TDtFvW4Vz1Fcpa8J1HPDvHJ768GV5TVgEK635" 250 "User rejected the request" rfl rfl
  ⟨h.1, h.2.1, h.2.2.1⟩

end MagicblockDevUtils
